import Mathlib

/-!
Verification development for the better-commuline-api repository.

The repository is a caching proxy over an upstream train-schedule API.
The definitions below are a shallow embedding of its core subsystems:
the station-name normalizer (src/utils/station-normalization.ts), the
time parsers (src/utils/time-parsing.ts and the local copy inside
src/services/schedule-query.ts), the schedule sync engine
(src/services/schedule-sync.ts), the sync orchestrator
(src/services/sync.ts) and the schedule query service
(src/services/schedule-query.ts).  JavaScript strings are modelled as
Lean `String` values; the JS string operations used by the code
(`toUpperCase`, `toLowerCase`, `trim`, `split`) are modelled
character-wise on the underlying `List Char`.  Database tables are
lists of rows, timestamps are minutes since local midnight, and
fallible calls are `Except` values threaded explicitly.
-/

namespace Commuline

/-- Model of JS `String.prototype.toUpperCase` (sufficient for the ASCII
station names the system handles). -/
def strUpper (s : String) : String := String.mk (s.data.map Char.toUpper)

/-- Model of JS `String.prototype.toLowerCase`. -/
def strLower (s : String) : String := String.mk (s.data.map Char.toLower)

/-- Whitespace recognised by the model of JS `trim`. -/
def isJsSpace (c : Char) : Bool := c = ' ' || c = '\t' || c = '\n' || c = '\r'

/-- Model of JS `String.prototype.trim`: strip whitespace at both ends. -/
def strTrim (s : String) : String :=
  String.mk (((s.data.dropWhile isJsSpace).reverse.dropWhile isJsSpace).reverse)

/-- Model of JS `String.prototype.split` with a single-character
separator: `"".split(sep)` gives `[""]`, and every occurrence of the
separator starts a new part. -/
def jsSplit (sep : Char) : List Char → List (List Char)
  | [] => [[]]
  | c :: rest =>
    if c = sep then [] :: jsSplit sep rest
    else
      match jsSplit sep rest with
      | [] => [[c]]
      | p :: ps => (c :: p) :: ps

/-- The fixed variant table of `normalizeStationName`
(src/utils/station-normalization.ts): concatenated upstream spellings
mapped to canonical spaced names. -/
def stationNameMap : List (String × String) :=
  [("TANJUNGPRIUK", "TANJUNG PRIOK"),
   ("JAKARTAKOTA", "JAKARTA KOTA"),
   ("KAMPUNGBANDAN", "KAMPUNG BANDAN"),
   ("TANAHABANG", "TANAH ABANG"),
   ("PARUNGPANJANG", "PARUNG PANJANG"),
   ("BANDARASOEKARNOHATTA", "BANDARA SOEKARNO HATTA")]

/-- A value produced by the JS expression `nameMap[name] || name`:
either a string, or a member inherited from `Object.prototype`.  The
variant table is a plain object literal, so accessing a key such as
`toString` walks the prototype chain and yields the inherited function
or object — a truthy value that is not a string — instead of
`undefined`. -/
inductive JsValue where
  | str (s : String)
  | protoMember (key : String)
deriving DecidableEq

/-- The own property names of `Object.prototype`, inherited by every
object literal: looking any of these up on `nameMap` yields the
inherited member (truthy, not a string) rather than `undefined`. -/
def objectPrototypeKeys : List String :=
  ["constructor", "hasOwnProperty", "isPrototypeOf", "propertyIsEnumerable",
   "toLocaleString", "toString", "valueOf", "__proto__",
   "__defineGetter__", "__defineSetter__", "__lookupGetter__", "__lookupSetter__"]

/-- `normalizeStationName` from src/utils/station-normalization.ts:
`nameMap[name] || name` on the object literal `nameMap`.  An own key
yields its string value (the `||` falls back to the input when that
value is falsy, in particular the empty string); a key inherited from
`Object.prototype` yields the inherited member, which is truthy, so
the `||` does not fall back; any other key yields `undefined` and the
`||` returns the input. -/
def normalizeStationName (name : String) : JsValue :=
  match stationNameMap.find? (fun p => p.1 == name) with
  | some p => if p.2 == "" then .str name else .str p.2
  | none =>
    if objectPrototypeKeys.contains name then .protoMember name
    else .str name

/-- `x.toUpperCase()` on a looked-up JS value: a string maps to its
uppercase form; calling it on an inherited prototype member throws
`TypeError`, modelled as `none` (the caller's per-item catch then
skips the item). -/
def jsToUpperCase : JsValue → Option String
  | .str s => some (strUpper s)
  | .protoMember _ => none

/-- `parseRouteName` from src/utils/station-normalization.ts:
`routeName.split('-')` destructured into its first two parts, each
trimmed and normalized.  When the string contains no `-`, the JS code
dereferences `undefined` and throws, which the embedding renders as
`none` (the caller catches the exception and skips the item). -/
def parseRouteName (routeName : String) : Option (JsValue × JsValue) :=
  match jsSplit '-' routeName.data with
  | origin :: destination :: _ =>
    some (normalizeStationName (strTrim (String.mk origin)),
          normalizeStationName (strTrim (String.mk destination)))
  | _ => none

/-- Numeric value of a digit character. -/
def digitVal (c : Char) : Nat := c.toNat - '0'.toNat

/-- The lax time regex `^([0-1]?[0-9]|2[0-3]):([0-5][0-9])$` used by
`parseTimeToLocalTimestamp` in src/services/schedule-query.ts, rendered
as an anchored character-pattern match returning the parsed
`(hours, minutes)` groups.  A match is either a single hour digit
(optional `[0-1]` absent) or two hour digits (`[0-1][0-9]` or `2[0-3]`),
then `:`, then `[0-5][0-9]`. -/
def laxTimeMatchChars : List Char → Option (Nat × Nat)
  | [h, c, m1, m2] =>
    if c = ':' ∧ h.isDigit = true ∧ ('0' ≤ m1 ∧ m1 ≤ '5') ∧ m2.isDigit = true then
      some (digitVal h, 10 * digitVal m1 + digitVal m2)
    else none
  | [h1, h2, c, m1, m2] =>
    if c = ':' ∧ ((('0' ≤ h1 ∧ h1 ≤ '1') ∧ h2.isDigit = true) ∨
          (h1 = '2' ∧ ('0' ≤ h2 ∧ h2 ≤ '3'))) ∧
        ('0' ≤ m1 ∧ m1 ≤ '5') ∧ m2.isDigit = true then
      some (10 * digitVal h1 + digitVal h2, 10 * digitVal m1 + digitVal m2)
    else none
  | _ => none

/-- Anchored match of the lax regex against a JS string. -/
def laxTimeMatch (s : String) : Option (Nat × Nat) := laxTimeMatchChars s.data

/-- The strict time regex `^([0-1][0-9]|2[0-3]):[0-5][0-9]$` of the
route-level validation schema (src/schemas/validation.ts), the
interface contract assumed upstream of the query service. -/
def strictTimeMatchChars : List Char → Bool
  | [h1, h2, c, m1, m2] =>
    decide (c = ':' ∧ ((('0' ≤ h1 ∧ h1 ≤ '1') ∧ h2.isDigit = true) ∨
        (h1 = '2' ∧ ('0' ≤ h2 ∧ h2 ≤ '3'))) ∧
      ('0' ≤ m1 ∧ m1 ≤ '5') ∧ m2.isDigit = true)
  | _ => false

/-- Anchored match of the strict contract regex against a JS string. -/
def strictTimeMatch (s : String) : Bool := strictTimeMatchChars s.data

/-- `parseTimeToLocalTimestamp` from src/services/schedule-query.ts:
match the lax regex, throw `Invalid time format` when it fails,
otherwise build a same-day timestamp, modelled as minutes since local
midnight. -/
def parseTimeToLocalTimestamp (timeStr : String) : Except String Nat :=
  match laxTimeMatch timeStr with
  | some hm => .ok (60 * hm.1 + hm.2)
  | none => .error ("Invalid time format: " ++ timeStr ++ ". Expected HH:mm format.")

/-- `generateScheduleId` from src/services/schedule-sync.ts:
the template literal `sc_krl_${stationId}_${trainId}` lowercased. -/
def generateScheduleId (stationId trainId : String) : String :=
  strLower ("sc_krl_" ++ stationId ++ "_" ++ trainId)

/-- Character list mapped to lower case (the `.data` view of
`strLower`). -/
def lowerChars (l : List Char) : List Char := l.map Char.toLower

theorem strLower_data (s : String) : (strLower s).data = lowerChars s.data := rfl

theorem data_append (s t : String) : (s ++ t).data = s.data ++ t.data := by
  cases s; cases t; rfl

theorem lowerChars_append (a b : List Char) :
    lowerChars (a ++ b) = lowerChars a ++ lowerChars b := List.map_append _ a b

theorem toLower_underscore : Char.toLower '_' = '_' := by decide

/-- If a marker character occurs in neither of the left parts, the split
of a concatenation at that marker is unique. -/
theorem marker_split (m : Char) (a : List Char) :
    ∀ (c b d : List Char), m ∉ a → m ∉ c → a ++ m :: b = c ++ m :: d →
      a = c ∧ b = d := by
  induction a with
  | nil =>
    intro c b d _ hc h
    cases c with
    | nil => simp_all
    | cons y ys =>
      simp only [List.nil_append, List.cons_append, List.cons.injEq] at h
      exact absurd (h.1 ▸ List.mem_cons_self y ys) hc
  | cons x xs ih =>
    intro c b d ha hc h
    cases c with
    | nil =>
      simp only [List.cons_append, List.nil_append, List.cons.injEq] at h
      exact absurd (h.1 ▸ List.mem_cons_self x xs) ha
    | cons y ys =>
      simp only [List.cons_append, List.cons.injEq] at h
      obtain ⟨rfl, h2⟩ := h
      have hxs : m ∉ xs := fun hm => ha (List.mem_cons_of_mem _ hm)
      have hys : m ∉ ys := fun hm => hc (List.mem_cons_of_mem _ hm)
      obtain ⟨e1, e2⟩ := ih ys b d hxs hys h2
      exact ⟨by rw [e1], e2⟩

theorem generateScheduleId_data (s t : String) :
    (generateScheduleId s t).data
      = lowerChars "sc_krl_".data ++ (lowerChars s.data ++ '_' :: lowerChars t.data) := by
  show lowerChars (("sc_krl_" ++ s ++ "_" ++ t).data) = _
  rw [data_append, data_append, data_append]
  simp only [lowerChars, List.map_append, List.append_assoc]
  have : ("_" : String).data.map Char.toLower = ['_'] := by decide
  rw [this]
  rfl

/-- C8 counterexample: the schedule id function is not injective on
(station code, train id) pairs — an underscore inside the station code
shifts the separator. -/
theorem generateScheduleId_not_injective :
    generateScheduleId "A_B" "C" = generateScheduleId "A" "B_C"
      ∧ ("A_B", "C") ≠ (("A" : String), ("B_C" : String)) := by
  exact ⟨by decide, by decide⟩

/-- C8 (amended): the schedule id is the lowercase string
`sc_krl_<station>_<train>`, and on pairs whose station code contains no
underscore the id determines the pair up to letter case: equal ids force
equal lowercased station codes and equal lowercased train ids (so the
upsert key is stable across repeated sync runs for such pairs). -/
theorem generateScheduleId_spec (s₁ t₁ s₂ t₂ : String)
    (h₁ : '_' ∉ lowerChars s₁.data) (h₂ : '_' ∉ lowerChars s₂.data)
    (h : generateScheduleId s₁ t₁ = generateScheduleId s₂ t₂) :
    generateScheduleId s₁ t₁ = strLower ("sc_krl_" ++ s₁ ++ "_" ++ t₁)
      ∧ lowerChars s₁.data = lowerChars s₂.data
      ∧ lowerChars t₁.data = lowerChars t₂.data := by
  refine ⟨rfl, ?_, ?_⟩
  all_goals
    have hd : (generateScheduleId s₁ t₁).data = (generateScheduleId s₂ t₂).data := by rw [h]
    rw [generateScheduleId_data, generateScheduleId_data] at hd
    have hm := marker_split '_' (lowerChars s₁.data) (lowerChars s₂.data)
      (lowerChars t₁.data) (lowerChars t₂.data) h₁ h₂ (List.append_cancel_left hd)
  · exact hm.1
  · exact hm.2

/-- C8 witness: two pairs differing only in station-code case produce
the same id, and the amended theorem recovers the lowercased pair. -/
theorem generateScheduleId_spec_witness :
    ('_' ∉ lowerChars ("AC" : String).data)
      ∧ (generateScheduleId "AC" "123" = strLower ("sc_krl_" ++ "AC" ++ "_" ++ "123")
        ∧ lowerChars ("AC" : String).data = lowerChars ("ac" : String).data
        ∧ lowerChars ("123" : String).data = lowerChars ("123" : String).data) :=
  ⟨by decide, generateScheduleId_spec "AC" "123" "ac" "123" (by decide) (by decide) (by decide)⟩

/-- C9 counterexample: on the input `toString` the object-literal
lookup hits the inherited `Object.prototype.toString`, which is
truthy, so `nameMap[name] || name` returns that member — a function,
not the input string: `normalizeStationName` is not the identity on
every string outside the variant table. -/
theorem normalizeStationName_not_identity :
    normalizeStationName "toString" = .protoMember "toString"
      ∧ JsValue.protoMember "toString" ≠ JsValue.str "toString" :=
  ⟨by decide, by decide⟩

/-- C9 (amended): every entry of the variant table is mapped to its
canonical spaced form; on any string outside the table that is not an
inherited `Object.prototype` property name (the empty string included)
`normalizeStationName` returns its input unchanged; on an inherited
property name such as `toString` it returns the truthy inherited
prototype member instead of the input. -/
theorem normalizeStationName_spec (s t : String)
    (h : ∀ p ∈ stationNameMap, p.1 ≠ s)
    (hs : objectPrototypeKeys.contains s = false)
    (ht : ∀ p ∈ stationNameMap, p.1 ≠ t)
    (htp : objectPrototypeKeys.contains t = true) :
    (∀ p ∈ stationNameMap, normalizeStationName p.1 = .str p.2)
      ∧ normalizeStationName s = .str s
      ∧ normalizeStationName "" = .str ""
      ∧ normalizeStationName t = .protoMember t := by
  have hfind : ∀ u : String, (∀ p ∈ stationNameMap, p.1 ≠ u) →
      stationNameMap.find? (fun p => p.1 == u) = none := by
    intro u hu
    rw [List.find?_eq_none]
    intro p hp
    simpa using hu p hp
  refine ⟨by decide, ?_, by decide, ?_⟩
  · unfold normalizeStationName
    rw [hfind s h, hs]
    rfl
  · unfold normalizeStationName
    rw [hfind t ht, htp]
    rfl

/-- C9 witness: `BOGOR` is outside both the variant table and the
prototype keys and is returned unchanged, while `toString` yields the
inherited prototype member. -/
theorem normalizeStationName_spec_witness :
    (objectPrototypeKeys.contains "BOGOR" = false
      ∧ objectPrototypeKeys.contains "toString" = true)
      ∧ ((∀ p ∈ stationNameMap, normalizeStationName p.1 = .str p.2)
        ∧ normalizeStationName "BOGOR" = .str "BOGOR"
        ∧ normalizeStationName "" = .str ""
        ∧ normalizeStationName "toString" = .protoMember "toString") :=
  ⟨⟨by decide, by decide⟩,
   normalizeStationName_spec "BOGOR" "toString" (by decide) (by decide) (by decide) (by decide)⟩

/-- Every character list the strict contract pattern accepts is also
accepted by the lax pattern. -/
theorem strict_implies_lax (l : List Char) (h : strictTimeMatchChars l = true) :
    ∃ v, laxTimeMatchChars l = some v := by
  unfold strictTimeMatchChars at h
  split at h
  · rename_i h1 h2 c m1 m2
    have hp := of_decide_eq_true h
    refine ⟨(10 * digitVal h1 + digitVal h2, 10 * digitVal m1 + digitVal m2), ?_⟩
    simp only [laxTimeMatchChars]
    rw [if_pos hp]
  · exact absurd h (by simp)

/-- C10: the query service's internal time parser uses the lax pattern
`([0-1]?[0-9]|2[0-3]):([0-5][0-9])`: `9:15` parses as 09:15 even though
the route-level contract regex rejects it, every string the strict
contract accepts also parses, and the invalid-time-format error is
raised exactly for strings failing the lax pattern. -/
theorem parseTime_lax_spec (s : String) (hs : strictTimeMatch s = true) :
    parseTimeToLocalTimestamp "9:15" = .ok (9 * 60 + 15)
      ∧ parseTimeToLocalTimestamp "9:15" = parseTimeToLocalTimestamp "09:15"
      ∧ strictTimeMatch "9:15" = false
      ∧ (∃ v, parseTimeToLocalTimestamp s = .ok v)
      ∧ (∀ u : String, (∃ e, parseTimeToLocalTimestamp u = .error e) ↔ laxTimeMatch u = none) := by
  refine ⟨by rfl, by rfl, by decide, ?_, ?_⟩
  · obtain ⟨v, hv⟩ := strict_implies_lax s.data hs
    refine ⟨60 * v.1 + v.2, ?_⟩
    unfold parseTimeToLocalTimestamp laxTimeMatch
    rw [hv]
  · intro u
    unfold parseTimeToLocalTimestamp
    cases hm : laxTimeMatch u with
    | some v => simp [hm]
    | none => simp [hm]

/-- C10 witness: `09:15` is accepted by the strict contract regex, and
the theorem applies to it. -/
theorem parseTime_lax_spec_witness :
    strictTimeMatch "09:15" = true
      ∧ (parseTimeToLocalTimestamp "9:15" = .ok (9 * 60 + 15)
        ∧ parseTimeToLocalTimestamp "9:15" = parseTimeToLocalTimestamp "09:15"
        ∧ strictTimeMatch "9:15" = false
        ∧ (∃ v, parseTimeToLocalTimestamp "09:15" = .ok v)
        ∧ (∀ u : String, (∃ e, parseTimeToLocalTimestamp u = .error e) ↔ laxTimeMatch u = none)) :=
  ⟨by decide, parseTime_lax_spec "09:15" (by decide)⟩

/-- A `Station` row (src/db/schema.ts): short-code primary key, display
name, regional group, enabled flag, optional free-form metadata and
timestamps. -/
structure Station where
  staId : String
  staName : String
  groupWil : Nat
  fgEnable : Nat
  metadata : Option String
  createdAt : Nat
  updatedAt : Nat
deriving DecidableEq

/-- A `Schedule` row (src/db/schema.ts): deterministic id, the queried
station, origin and destination station references, train data, the
same-day departure/arrival instants (minutes since local midnight) and
an optional metadata blob. -/
structure ScheduleRow where
  id : String
  stationId : String
  originStationId : String
  destinationStationId : String
  trainId : String
  lineName : String
  routeName : String
  departsAt : Nat
  arrivesAt : Nat
  metadata : Option String
  updatedAt : Nat
deriving DecidableEq

/-- A `RouteMap` row (src/db/schema.ts). -/
structure RouteMapRow where
  area : Nat
  permalink : String
  createdAt : Nat
  updatedAt : Nat
deriving DecidableEq

/-- One item of the upstream schedule response
(src/services/upstream-api.ts, `ScheduleResponse.data`). -/
structure SchedItem where
  train_id : String
  ka_name : String
  route_name : String
  dest : String
  time_est : String
  color : String
  dest_time : String
deriving DecidableEq

/-- Errors observable by the sync engine: `upstream` models
`UpstreamApiError` (optional HTTP status and raw body), `other` models
any other thrown `Error`. -/
inductive SyncErr where
  | upstream (statusCode : Option Nat) (message : String) (responseBody : String)
  | other (message : String)
deriving DecidableEq

/-- The stations loaded by `syncSchedules`: rows with `fgEnable = 1`
(the drizzle `where eq(stations.fgEnable, 1)` clause). -/
def activeStations (tbl : List Station) : List Station :=
  tbl.filter (fun s => s.fgEnable == 1)

/-- The batching loop of `syncSchedules`
(src/services/schedule-sync.ts): `for (i = 0; i < n; i += B)
batches.push(slice(i, i + B))`, rendered with the list length as fuel
(each step with `0 < B` consumes at least one element). -/
def chunkGo (B : Nat) : Nat → List α → List (List α)
  | 0, _ => []
  | _, [] => []
  | Nat.succ fuel, l => l.take B :: chunkGo B fuel (l.drop B)

/-- The batch list built by `syncSchedules`. -/
def chunkBatches (B : Nat) (l : List α) : List (List α) := chunkGo B l.length l

/-- The per-station record produced inside a batch: the JS code maps a
station to `{stationId, success: true, count}` or, when
`syncScheduleForStation` throws, to `{stationId, success: false,
error}` — the exception is caught inside the batch callback. -/
structure StationResult where
  stationId : String
  success : Bool
  count : Nat
deriving DecidableEq

/-- The try/catch around `syncScheduleForStation` inside the batch
callback of `syncSchedules`: a failure becomes a failure record, never
a thrown exception. -/
def runStationInBatch (syncFn : String → Except SyncErr Nat) (sid : String) : StationResult :=
  match syncFn sid with
  | .ok n => ⟨sid, true, n⟩
  | .error _ => ⟨sid, false, 0⟩

/-- `syncSchedules` (src/services/schedule-sync.ts): load the active
stations, cut them into consecutive batches of the configured size, and
process the batches in order, each station's outcome recorded by
`runStationInBatch`.  The function is total: it returns the per-batch
result records and has no error outcome. -/
def syncSchedules (syncFn : String → Except SyncErr Nat) (tbl : List Station) (B : Nat) :
    List (List StationResult) :=
  (chunkBatches B (activeStations tbl)).map
    (fun batch => batch.map (fun s => runStationInBatch syncFn s.staId))

theorem chunkGo_flatten (B : Nat) (hB : 0 < B) :
    ∀ (fuel : Nat) (l : List α), l.length ≤ fuel → (chunkGo B fuel l).flatten = l := by
  intro fuel
  induction fuel with
  | zero =>
    intro l hl
    have : l = [] := List.eq_nil_of_length_eq_zero (Nat.le_zero.mp hl)
    simp [this, chunkGo]
  | succ n ih =>
    intro l hl
    cases l with
    | nil => simp [chunkGo]
    | cons x xs =>
      simp only [chunkGo, List.flatten_cons]
      rw [ih ((x :: xs).drop B)]
      · exact List.take_append_drop B (x :: xs)
      · have : ((x :: xs).drop B).length = (x :: xs).length - B := List.length_drop B _
        rw [this]
        simp only [List.length_cons] at hl ⊢
        omega

theorem chunkBatches_flatten (B : Nat) (hB : 0 < B) (l : List α) :
    (chunkBatches B l).flatten = l :=
  chunkGo_flatten B hB l.length l (Nat.le_refl _)

theorem chunkGo_sizes (B : Nat) (hB : 0 < B) :
    ∀ (fuel : Nat) (l : List α), l.length ≤ fuel →
      ∀ b ∈ chunkGo B fuel l, b.length ≤ B ∧ b ≠ [] := by
  intro fuel
  induction fuel with
  | zero => intro l _ b hb; simp [chunkGo] at hb
  | succ n ih =>
    intro l hl b hb
    cases l with
    | nil => simp [chunkGo] at hb
    | cons x xs =>
      simp only [chunkGo, List.mem_cons] at hb
      rcases hb with rfl | hb
      · constructor
        · rw [List.length_take]; exact Nat.min_le_left _ _
        · intro hemp
          have : ((x :: xs).take B).length = 0 := by rw [hemp]; rfl
          rw [List.length_take] at this
          simp only [List.length_cons] at this
          omega
      · refine ih ((x :: xs).drop B) ?_ b hb
        rw [List.length_drop]
        simp only [List.length_cons] at hl ⊢
        omega

/-- The station id recorded for a batch entry does not depend on the
sync outcome. -/
theorem runStationInBatch_stationId (f : String → Except SyncErr Nat) (sid : String) :
    (runStationInBatch f sid).stationId = sid := by
  unfold runStationInBatch
  cases f sid <;> rfl

/-- C1: `syncSchedules` cuts the active stations (rows with
`fgEnable = 1`) into consecutive batches of the configured size `B`
(12 stations with `B = 5` give batches of sizes 5, 5 and 2, shown here
on `List.range 12`), the batches concatenate back to the active-station
list, and the set of stations attempted — one result record per active
station, in order — is the same for every per-station outcome function,
so one station's exception neither escapes `syncSchedules` nor prevents
any batch-mate or later batch from being attempted. -/
theorem syncSchedules_batching (f g : String → Except SyncErr Nat)
    (tbl : List Station) (B : Nat) (hB : 0 < B) :
    ((chunkBatches B (activeStations tbl)).flatten = activeStations tbl)
      ∧ (∀ b ∈ chunkBatches B (activeStations tbl), b.length ≤ B ∧ b ≠ [])
      ∧ ((syncSchedules f tbl B).flatten.map StationResult.stationId
          = (activeStations tbl).map Station.staId)
      ∧ ((syncSchedules f tbl B).flatten.map StationResult.stationId
          = (syncSchedules g tbl B).flatten.map StationResult.stationId)
      ∧ ((chunkBatches 5 (List.range 12)).map List.length = [5, 5, 2]) := by
  have hmap : ∀ (h : String → Except SyncErr Nat),
      (syncSchedules h tbl B).flatten.map StationResult.stationId
        = (activeStations tbl).map Station.staId := by
    intro h
    unfold syncSchedules
    rw [List.map_flatten, List.map_map]
    have hcomp : (List.map StationResult.stationId ∘
          fun batch => List.map (fun s => runStationInBatch h s.staId) batch)
        = fun batch : List Station => List.map Station.staId batch := by
      funext batch
      simp only [Function.comp_apply, List.map_map]
      exact List.map_congr_left (fun s _ => runStationInBatch_stationId h s.staId)
    rw [hcomp, ← List.map_flatten, chunkBatches_flatten B hB]
  refine ⟨chunkBatches_flatten B hB _, chunkGo_sizes B hB _ _ (Nat.le_refl _), hmap f, ?_, by decide⟩
  rw [hmap f, hmap g]

/-- C1 witness: four active stations among five rows, batch size 3,
with a sync function that fails on station `B2`: batches have sizes
3 and 1, and every active station is attempted regardless of the
failure. -/
theorem syncSchedules_batching_witness :
    (0 : Nat) < 3
      ∧ (let tbl : List Station :=
          [⟨"B1", "STA ONE", 1, 1, none, 0, 0⟩,
           ⟨"B2", "STA TWO", 1, 1, none, 0, 0⟩,
           ⟨"OFF", "STA OFF", 1, 0, none, 0, 0⟩,
           ⟨"B3", "STA THREE", 1, 1, none, 0, 0⟩,
           ⟨"B4", "STA FOUR", 1, 1, none, 0, 0⟩]
        let f : String → Except SyncErr Nat :=
          fun sid => if sid = "B2" then .error (.upstream (some 500) "boom" "") else .ok 2
        (syncSchedules f tbl 3).flatten.map StationResult.stationId
          = (activeStations tbl).map Station.staId) := by
  refine ⟨by decide, ?_⟩
  exact (syncSchedules_batching
    (fun sid => if sid = "B2" then .error (.upstream (some 500) "boom" "") else .ok 2)
    (fun sid => if sid = "B2" then .error (.upstream (some 500) "boom" "") else .ok 2)
    [⟨"B1", "STA ONE", 1, 1, none, 0, 0⟩,
     ⟨"B2", "STA TWO", 1, 1, none, 0, 0⟩,
     ⟨"OFF", "STA OFF", 1, 0, none, 0, 0⟩,
     ⟨"B3", "STA THREE", 1, 1, none, 0, 0⟩,
     ⟨"B4", "STA FOUR", 1, 1, none, 0, 0⟩]
    3 (by decide)).2.2.1

/-- Best-effort value of JS `Number` on a digit string, used to model
`time_est.split(':').map(Number)` in `syncScheduleForStation`; a
malformed component yields `NaN` in JS (an invalid date, not an
exception) and is modelled as 0 here — no claim depends on the stored
value of a malformed time. -/
def jsNumberOr0 (l : List Char) : Nat :=
  if l.all Char.isDigit then l.foldl (fun n c => 10 * n + digitVal c) 0 else 0

/-- Model of the `setHours(h, m)` timestamp built from an `HH:mm`
string in `syncScheduleForStation`, as minutes since local midnight. -/
def hmToMinutes (s : String) : Nat :=
  match jsSplit ':' s.data with
  | h :: m :: _ => 60 * jsNumberOr0 h + jsNumberOr0 m
  | parts => 60 * jsNumberOr0 (parts.headD [])

/-- The in-memory station-name map of `syncScheduleForStation`:
`new Map(allStations.map(s => [s.staName.toUpperCase(), s.staId]))`. -/
def buildStationMap (tbl : List Station) : List (String × String) :=
  tbl.map (fun s => (strUpper s.staName, s.staId))

/-- Lookup in the JS `Map` model: on duplicate keys the later entry
wins, as in the `Map` constructor. -/
def mapGet (m : List (String × String)) (k : String) : Option String :=
  (m.reverse.find? (fun p => p.1 == k)).map (fun p => p.2)

/-- The JS truthiness test `!originStationId` applied to a lookup
result: `undefined` and the empty string are both falsy. -/
def truthy (x : Option String) : Bool :=
  match x with
  | some s => s ≠ ""
  | none => false

/-- The metadata blob written when a station 404s:
`JSON.stringify({ active: false })`. -/
def inactiveStationMetadata : String := "\x7b\"active\":false\x7d"

/-- The metadata blob written per schedule row:
`JSON.stringify({ origin: { color: schedule.color || null } })`. -/
def colorMetadata (color : String) : String :=
  "\x7b\"origin\":\x7b\"color\":"
    ++ (if color = "" then "null" else "\"" ++ color ++ "\"") ++ "\x7d\x7d"

/-- One iteration of the item loop of `syncScheduleForStation`: parse
the route, uppercase each side (`origin.toUpperCase()` throws on a
prototype member, caught by the inner catch), resolve both names
through the station-name map, and build the candidate schedule row;
`none` models the `continue` taken when the route cannot be parsed or
uppercased (the inner catch) or when either station reference fails to
resolve. -/
def mkScheduleRecord (tbl : List Station) (stationId : String) (now : Nat)
    (item : SchedItem) : Option ScheduleRow :=
  match parseRouteName item.route_name with
  | none => none
  | some (origin, destination) =>
    match jsToUpperCase origin, jsToUpperCase destination with
    | none, _ => none
    | some _, none => none
    | some uo, some ud =>
      let m := buildStationMap tbl
      let o := mapGet m uo
      let d := mapGet m ud
      if truthy o = true ∧ truthy d = true then
        some
          { id := generateScheduleId stationId item.train_id
            stationId := stationId
            originStationId := o.getD ""
            destinationStationId := d.getD ""
            trainId := item.train_id
            lineName := item.ka_name
            routeName := item.route_name
            departsAt := hmToMinutes item.time_est
            arrivesAt := hmToMinutes item.dest_time
            metadata := some (colorMetadata item.color)
            updatedAt := now }
      else none

/-- The item loop of `syncScheduleForStation` with its
continue-on-skip structure. -/
def buildScheduleRecords (tbl : List Station) (stationId : String) (now : Nat) :
    List SchedItem → List ScheduleRow
  | [] => []
  | item :: rest =>
    match mkScheduleRecord tbl stationId now item with
    | some r => r :: buildScheduleRecords tbl stationId now rest
    | none => buildScheduleRecords tbl stationId now rest

/-- The `onConflictDoUpdate` set clause: only departure, arrival,
metadata and updated-at are taken from the incoming record. -/
def applyConflictUpdate (r x : ScheduleRow) : ScheduleRow :=
  { x with
    departsAt := r.departsAt
    arrivesAt := r.arrivesAt
    metadata := r.metadata
    updatedAt := r.updatedAt }

/-- The per-record upsert of `syncScheduleForStation`: insert, or on a
primary-key conflict update only the mutable fields of the existing
row. -/
def upsertSchedule (dbRows : List ScheduleRow) (r : ScheduleRow) : List ScheduleRow :=
  if dbRows.any (fun x => x.id == r.id) then
    dbRows.map (fun x => if x.id == r.id then applyConflictUpdate r x else x)
  else dbRows ++ [r]

/-- The upsert loop over all candidate records. -/
def upsertAll (dbRows : List ScheduleRow) (records : List ScheduleRow) : List ScheduleRow :=
  records.foldl upsertSchedule dbRows

/-- The metadata patch taken on a 404:
`update(stations).set({metadata, updatedAt}).where(eq(staId, stationId))`. -/
def markStationInactive (tbl : List Station) (stationId : String) (now : Nat) : List Station :=
  tbl.map (fun s =>
    if s.staId == stationId then
      { s with metadata := some inactiveStationMetadata, updatedAt := now }
    else s)

/-- Combined outcome of one `syncScheduleForStation` call: the station
table, the schedule table, and the returned count or re-raised error. -/
structure StationSyncOut where
  stationsTable : List Station
  schedulesTable : List ScheduleRow
  result : Except SyncErr Nat

/-- `syncScheduleForStation` (src/services/schedule-sync.ts), with the
joint outcome of the preflight probe and `getSchedules` passed in as
`upstream`.  A 404 `UpstreamApiError` marks the station row inactive
and returns 0; any other error is re-raised with no table change; on
success the item loop builds records and upserts them, returning the
number of rows written. -/
def syncScheduleForStation (stationId : String)
    (upstream : Except SyncErr (List SchedItem))
    (tbl : List Station) (dbRows : List ScheduleRow) (now : Nat) : StationSyncOut :=
  match upstream with
  | .error e =>
    match e with
    | .upstream st _ _ =>
      if st = some 404 then ⟨markStationInactive tbl stationId now, dbRows, .ok 0⟩
      else ⟨tbl, dbRows, .error e⟩
    | .other _ => ⟨tbl, dbRows, .error e⟩
  | .ok data =>
    if data.isEmpty then ⟨tbl, dbRows, .ok 0⟩
    else
      let records := buildScheduleRecords tbl stationId now data
      if records.isEmpty then ⟨tbl, dbRows, .ok 0⟩
      else ⟨tbl, upsertAll dbRows records, .ok records.length⟩

/-- C2: on a 404 `UpstreamApiError` from the schedule fetch,
`syncScheduleForStation` patches the station's row metadata to the
inactive blob (other rows untouched), writes no schedule rows, and
returns 0 without raising; on any other upstream status or a transport
error it re-raises the error and leaves both tables — in particular the
station row's metadata — unchanged. -/
theorem syncStation_error_spec (stationId : String) (tbl : List Station)
    (dbRows : List ScheduleRow) (now : Nat) (st : Option Nat) (msg body : String)
    (hst : st ≠ some 404) :
    (∀ s ∈ (syncScheduleForStation stationId
        (.error (.upstream (some 404) msg body)) tbl dbRows now).stationsTable,
        (s.staId = stationId →
          s.metadata = some inactiveStationMetadata ∧ s.updatedAt = now)
        ∧ (s.staId ≠ stationId → s ∈ tbl))
      ∧ ((syncScheduleForStation stationId
          (.error (.upstream (some 404) msg body)) tbl dbRows now).result = .ok 0)
      ∧ ((syncScheduleForStation stationId
          (.error (.upstream (some 404) msg body)) tbl dbRows now).schedulesTable = dbRows)
      ∧ (syncScheduleForStation stationId
          (.error (.upstream st msg body)) tbl dbRows now
          = ⟨tbl, dbRows, .error (.upstream st msg body)⟩)
      ∧ (syncScheduleForStation stationId
          (.error (.other msg)) tbl dbRows now
          = ⟨tbl, dbRows, .error (.other msg)⟩) := by
  have h404 : syncScheduleForStation stationId
      (.error (.upstream (some 404) msg body)) tbl dbRows now
      = ⟨markStationInactive tbl stationId now, dbRows, .ok 0⟩ := by
    show (if (some 404 : Option Nat) = some 404
        then (⟨markStationInactive tbl stationId now, dbRows, .ok 0⟩ : StationSyncOut)
        else ⟨tbl, dbRows, .error (.upstream (some 404) msg body)⟩)
      = ⟨markStationInactive tbl stationId now, dbRows, .ok 0⟩
    rw [if_pos rfl]
  refine ⟨?_, by rw [h404], by rw [h404], ?_, rfl⟩
  · intro s hs
    rw [h404] at hs
    simp only [markStationInactive, List.mem_map] at hs
    obtain ⟨t, ht, rfl⟩ := hs
    by_cases h : t.staId = stationId
    · simp [h]
    · simp [h, ht]
  · show (if st = some 404
        then (⟨markStationInactive tbl stationId now, dbRows, .ok 0⟩ : StationSyncOut)
        else ⟨tbl, dbRows, .error (.upstream st msg body)⟩)
      = ⟨tbl, dbRows, .error (.upstream st msg body)⟩
    rw [if_neg hst]

/-- C2 witness: station `TST` 404s — its row gains inactive metadata
and the call returns 0 — while a 500 is re-raised with no change. -/
theorem syncStation_error_spec_witness :
    ((some 500 : Option Nat) ≠ some 404)
      ∧ ((∀ s ∈ (syncScheduleForStation "TST"
          (.error (.upstream (some 404) "Upstream API returned status 404" "gone"))
          [⟨"TST", "Test Station", 1, 1, none, 0, 0⟩] [] 7).stationsTable,
          (s.staId = "TST" →
            s.metadata = some inactiveStationMetadata ∧ s.updatedAt = 7)
          ∧ (s.staId ≠ "TST" → s ∈ [⟨"TST", "Test Station", 1, 1, none, 0, 0⟩]))
        ∧ ((syncScheduleForStation "TST"
            (.error (.upstream (some 404) "Upstream API returned status 404" "gone"))
            [⟨"TST", "Test Station", 1, 1, none, 0, 0⟩] [] 7).result = .ok 0)
        ∧ ((syncScheduleForStation "TST"
            (.error (.upstream (some 404) "Upstream API returned status 404" "gone"))
            [⟨"TST", "Test Station", 1, 1, none, 0, 0⟩] [] 7).schedulesTable = [])
        ∧ (syncScheduleForStation "TST"
            (.error (.upstream (some 500) "Upstream API returned status 500" "oops"))
            [⟨"TST", "Test Station", 1, 1, none, 0, 0⟩] [] 7
            = ⟨[⟨"TST", "Test Station", 1, 1, none, 0, 0⟩], [],
                .error (.upstream (some 500) "Upstream API returned status 500" "oops")⟩)
        ∧ (syncScheduleForStation "TST"
            (.error (.other "Upstream API returned status 500"))
            [⟨"TST", "Test Station", 1, 1, none, 0, 0⟩] [] 7
            = ⟨[⟨"TST", "Test Station", 1, 1, none, 0, 0⟩], [],
                .error (.other "Upstream API returned status 500")⟩)) :=
  ⟨by decide,
   syncStation_error_spec "TST" [⟨"TST", "Test Station", 1, 1, none, 0, 0⟩] [] 7
     (some 500) "Upstream API returned status 500" "oops" (by decide)⟩

/-- The three station references of a schedule row resolve in the given
station table. -/
def refsOk (tbl : List Station) (r : ScheduleRow) : Prop :=
  r.stationId ∈ tbl.map Station.staId
    ∧ r.originStationId ∈ tbl.map Station.staId
    ∧ r.destinationStationId ∈ tbl.map Station.staId

theorem mapGet_mem (tbl : List Station) (k v : String)
    (h : mapGet (buildStationMap tbl) k = some v) : v ∈ tbl.map Station.staId := by
  unfold mapGet at h
  cases hf : (buildStationMap tbl).reverse.find? (fun p => p.1 == k) with
  | none => rw [hf] at h; exact absurd h (by simp)
  | some p =>
    rw [hf] at h
    replace h : p.2 = v := by simpa using h
    have hp := List.mem_of_find?_eq_some hf
    rw [List.mem_reverse] at hp
    unfold buildStationMap at hp
    rw [List.mem_map] at hp
    obtain ⟨s, hs, heq⟩ := hp
    rw [List.mem_map]
    refine ⟨s, hs, ?_⟩
    rw [← heq] at h
    simpa using h

theorem truthy_some (o : Option String) (h : truthy o = true) :
    ∃ v, o = some v ∧ o.getD "" = v := by
  cases o with
  | none => exact absurd h (by simp [truthy])
  | some v => exact ⟨v, rfl, rfl⟩

theorem mkScheduleRecord_refs (tbl : List Station) (sid : String) (now : Nat)
    (item : SchedItem) (r : ScheduleRow)
    (h : mkScheduleRecord tbl sid now item = some r) :
    r.originStationId ∈ tbl.map Station.staId
      ∧ r.destinationStationId ∈ tbl.map Station.staId
      ∧ r.stationId = sid := by
  unfold mkScheduleRecord at h
  cases hp : parseRouteName item.route_name with
  | none => rw [hp] at h; exact absurd h (by simp)
  | some od =>
    rw [hp] at h
    obtain ⟨origin, destination⟩ := od
    simp only at h
    cases huo : jsToUpperCase origin with
    | none => rw [huo] at h; exact absurd h (by simp)
    | some uo =>
      cases hud : jsToUpperCase destination with
      | none => rw [huo, hud] at h; exact absurd h (by simp)
      | some ud =>
        rw [huo, hud] at h
        simp only at h
        split at h
        · rename_i hcond
          obtain ⟨ho, hd⟩ := hcond
          obtain ⟨vo, hvo, hgo⟩ := truthy_some _ ho
          obtain ⟨vd, hvd, hgd⟩ := truthy_some _ hd
          injection h with h
          subst h
          refine ⟨?_, ?_, rfl⟩
          · simpa [hgo] using mapGet_mem tbl uo vo hvo
          · simpa [hgd] using mapGet_mem tbl ud vd hvd
        · exact absurd h (by simp)

theorem buildScheduleRecords_refs (tbl : List Station) (sid : String) (now : Nat) :
    ∀ (items : List SchedItem), ∀ r ∈ buildScheduleRecords tbl sid now items,
      r.originStationId ∈ tbl.map Station.staId
        ∧ r.destinationStationId ∈ tbl.map Station.staId
        ∧ r.stationId = sid := by
  intro items
  induction items with
  | nil => intro r hr; exact absurd hr (by simp [buildScheduleRecords])
  | cons item rest ih =>
    intro r hr
    simp only [buildScheduleRecords] at hr
    cases hmk : mkScheduleRecord tbl sid now item with
    | none => rw [hmk] at hr; exact ih r hr
    | some q =>
      rw [hmk] at hr
      rcases List.mem_cons.mp hr with rfl | hr
      · exact mkScheduleRecord_refs tbl sid now item r hmk
      · exact ih r hr

theorem upsertSchedule_refsOk (tbl : List Station) (dbRows : List ScheduleRow)
    (r : ScheduleRow) (hdb : ∀ x ∈ dbRows, refsOk tbl x) (hr : refsOk tbl r) :
    ∀ x ∈ upsertSchedule dbRows r, refsOk tbl x := by
  intro x hx
  unfold upsertSchedule at hx
  split at hx
  · rw [List.mem_map] at hx
    obtain ⟨y, hy, rfl⟩ := hx
    split
    · exact ⟨(hdb y hy).1, (hdb y hy).2.1, (hdb y hy).2.2⟩
    · exact hdb y hy
  · rcases List.mem_append.mp hx with hx | hx
    · exact hdb x hx
    · rw [List.mem_singleton.mp hx]; exact hr

theorem upsertAll_refsOk (tbl : List Station) :
    ∀ (records dbRows : List ScheduleRow), (∀ x ∈ dbRows, refsOk tbl x) →
      (∀ q ∈ records, refsOk tbl q) → ∀ x ∈ upsertAll dbRows records, refsOk tbl x := by
  intro records
  induction records with
  | nil => intro dbRows hdb _ x hx; exact hdb x hx
  | cons q rest ih =>
    intro dbRows hdb hrec x hx
    unfold upsertAll at hx
    rw [List.foldl_cons] at hx
    exact ih (upsertSchedule dbRows q)
      (upsertSchedule_refsOk tbl dbRows q hdb (hrec q (List.mem_cons_self q rest)))
      (fun p hp => hrec p (List.mem_cons_of_mem q hp)) x hx

/-- C3: every candidate schedule row built by the item loop carries
origin and destination ids resolved through the name map built from the
full station table (so they are ids of rows of that table) and the
queried station's id; an item whose route does not resolve is skipped
while the remaining items are still processed; and if every schedule
row already in the table has resolving references and the queried
station id is in the station table, the same holds of every row after
`syncScheduleForStation` runs — no written row carries a dangling
station reference. -/
theorem syncStation_refs_spec (stationId : String) (items : List SchedItem)
    (tbl : List Station) (dbRows : List ScheduleRow) (now : Nat)
    (hsid : stationId ∈ tbl.map Station.staId)
    (hdb : ∀ x ∈ dbRows, refsOk tbl x) :
    (∀ r ∈ buildScheduleRecords tbl stationId now items,
        r.originStationId ∈ tbl.map Station.staId
        ∧ r.destinationStationId ∈ tbl.map Station.staId
        ∧ r.stationId = stationId)
      ∧ (∀ (item : SchedItem) (pre post : List SchedItem),
          mkScheduleRecord tbl stationId now item = none →
          buildScheduleRecords tbl stationId now (pre ++ item :: post)
            = buildScheduleRecords tbl stationId now (pre ++ post))
      ∧ (∀ x ∈ (syncScheduleForStation stationId (.ok items) tbl dbRows now).schedulesTable,
          refsOk tbl x) := by
  refine ⟨buildScheduleRecords_refs tbl stationId now items, ?_, ?_⟩
  · intro item pre post hnone
    induction pre with
    | nil =>
      simp only [List.nil_append, buildScheduleRecords]
      rw [hnone]
    | cons p ps ih =>
      simp only [List.cons_append, buildScheduleRecords, List.append_eq]
      cases hmk : mkScheduleRecord tbl stationId now p with
      | none => simp only [hmk, ih]
      | some q => simp only [hmk, ih]
  · intro x hx
    simp only [syncScheduleForStation] at hx
    split at hx
    · exact hdb x hx
    · split at hx
      · exact hdb x hx
      · refine upsertAll_refsOk tbl (buildScheduleRecords tbl stationId now items)
          dbRows hdb ?_ x hx
        intro q hq
        obtain ⟨ho, hd, hs⟩ := buildScheduleRecords_refs tbl stationId now items q hq
        exact ⟨hs ▸ hsid, ho, hd⟩

/-- C3 witness: a one-item response whose route resolves against a
three-station table produces exactly one record, and every produced
record references only station ids present in the table. -/
theorem syncStation_refs_spec_witness :
    ("TST001" ∈ ([⟨"TST001", "Test Station", 1, 1, none, 0, 0⟩,
        ⟨"TST002", "Origin Station", 1, 1, none, 0, 0⟩,
        ⟨"TST003", "Destination Station", 1, 1, none, 0, 0⟩] : List Station).map Station.staId)
      ∧ ((buildScheduleRecords
          [⟨"TST001", "Test Station", 1, 1, none, 0, 0⟩,
           ⟨"TST002", "Origin Station", 1, 1, none, 0, 0⟩,
           ⟨"TST003", "Destination Station", 1, 1, none, 0, 0⟩] "TST001" 0
          [⟨"TRAIN1", "Commuter Line", "ORIGIN STATION-DESTINATION STATION",
            "DESTINATION", "08:00", "#FF0000", "09:30"⟩]).length = 1)
      ∧ (∀ r ∈ buildScheduleRecords
          [⟨"TST001", "Test Station", 1, 1, none, 0, 0⟩,
           ⟨"TST002", "Origin Station", 1, 1, none, 0, 0⟩,
           ⟨"TST003", "Destination Station", 1, 1, none, 0, 0⟩] "TST001" 0
          [⟨"TRAIN1", "Commuter Line", "ORIGIN STATION-DESTINATION STATION",
            "DESTINATION", "08:00", "#FF0000", "09:30"⟩],
          r.originStationId ∈ ([⟨"TST001", "Test Station", 1, 1, none, 0, 0⟩,
            ⟨"TST002", "Origin Station", 1, 1, none, 0, 0⟩,
            ⟨"TST003", "Destination Station", 1, 1, none, 0, 0⟩] : List Station).map Station.staId
          ∧ r.destinationStationId ∈ ([⟨"TST001", "Test Station", 1, 1, none, 0, 0⟩,
            ⟨"TST002", "Origin Station", 1, 1, none, 0, 0⟩,
            ⟨"TST003", "Destination Station", 1, 1, none, 0, 0⟩] : List Station).map Station.staId
          ∧ r.stationId = "TST001") :=
  ⟨by decide, by decide,
   (syncStation_refs_spec "TST001"
     [⟨"TRAIN1", "Commuter Line", "ORIGIN STATION-DESTINATION STATION",
       "DESTINATION", "08:00", "#FF0000", "09:30"⟩]
     [⟨"TST001", "Test Station", 1, 1, none, 0, 0⟩,
      ⟨"TST002", "Origin Station", 1, 1, none, 0, 0⟩,
      ⟨"TST003", "Destination Station", 1, 1, none, 0, 0⟩] [] 0
     (by decide) (by simp)).1⟩

/-- C7: when the upsert hits a primary-key conflict, the table keeps
its length and each row keeps its position; the conflicting row takes
the incoming departure, arrival, metadata and updated-at values while
its train id, line name, route name and all three station references
are those of the existing row; non-conflicting rows are untouched. -/
theorem upsert_conflict_frame (dbRows : List ScheduleRow) (r : ScheduleRow)
    (h : dbRows.any (fun x => x.id == r.id) = true) :
    ((upsertSchedule dbRows r).length = dbRows.length)
      ∧ (∀ i (hi : i < dbRows.length) (hj : i < (upsertSchedule dbRows r).length),
          (upsertSchedule dbRows r).get ⟨i, hj⟩
            = (if (dbRows.get ⟨i, hi⟩).id = r.id
               then applyConflictUpdate r (dbRows.get ⟨i, hi⟩)
               else dbRows.get ⟨i, hi⟩))
      ∧ (∀ x : ScheduleRow,
          (applyConflictUpdate r x).trainId = x.trainId
          ∧ (applyConflictUpdate r x).lineName = x.lineName
          ∧ (applyConflictUpdate r x).routeName = x.routeName
          ∧ (applyConflictUpdate r x).stationId = x.stationId
          ∧ (applyConflictUpdate r x).originStationId = x.originStationId
          ∧ (applyConflictUpdate r x).destinationStationId = x.destinationStationId
          ∧ (applyConflictUpdate r x).id = x.id
          ∧ (applyConflictUpdate r x).departsAt = r.departsAt
          ∧ (applyConflictUpdate r x).arrivesAt = r.arrivesAt
          ∧ (applyConflictUpdate r x).metadata = r.metadata
          ∧ (applyConflictUpdate r x).updatedAt = r.updatedAt) := by
  have hu : upsertSchedule dbRows r
      = dbRows.map (fun x => if x.id == r.id then applyConflictUpdate r x else x) := by
    unfold upsertSchedule
    rw [if_pos h]
  refine ⟨by rw [hu, List.length_map], ?_, ?_⟩
  · intro i hi hj
    have : (upsertSchedule dbRows r).get ⟨i, hj⟩
        = (fun x => if x.id == r.id then applyConflictUpdate r x else x) (dbRows.get ⟨i, hi⟩) := by
      simp only [hu, List.get_eq_getElem, List.getElem_map]
    rw [this]
    by_cases hx : (dbRows.get ⟨i, hi⟩).id = r.id <;> simp [hx]
  · intro x
    exact ⟨rfl, rfl, rfl, rfl, rfl, rfl, rfl, rfl, rfl, rfl, rfl⟩

/-- C7 witness: upserting over an existing row with the same id keeps
the table length (the conflicting row is updated in place, not
duplicated). -/
theorem upsert_conflict_frame_witness :
    (([(⟨"sc_krl_tst001_train1", "TST001", "TST002", "TST003", "TRAIN1",
          "Commuter Line", "A-B", 480, 570, none, 0⟩ : ScheduleRow)].any
        (fun x => x.id == (⟨"sc_krl_tst001_train1", "OTHER", "OTHER2", "OTHER3",
          "TRAIN9", "Other Line", "C-D", 500, 590, some "m", 9⟩ : ScheduleRow).id)) = true)
      ∧ ((upsertSchedule
          [(⟨"sc_krl_tst001_train1", "TST001", "TST002", "TST003", "TRAIN1",
             "Commuter Line", "A-B", 480, 570, none, 0⟩ : ScheduleRow)]
          ⟨"sc_krl_tst001_train1", "OTHER", "OTHER2", "OTHER3",
           "TRAIN9", "Other Line", "C-D", 500, 590, some "m", 9⟩).length = 1) :=
  ⟨by decide,
   by
    have hlen := (upsert_conflict_frame
      [(⟨"sc_krl_tst001_train1", "TST001", "TST002", "TST003", "TRAIN1",
         "Commuter Line", "A-B", 480, 570, none, 0⟩ : ScheduleRow)]
      ⟨"sc_krl_tst001_train1", "OTHER", "OTHER2", "OTHER3",
       "TRAIN9", "Other Line", "C-D", 500, 590, some "m", 9⟩ (by decide)).1
    simpa using hlen⟩

/-- A `SyncMetadata` status tag (src/db/schema.ts, src/services/sync.ts). -/
inductive SyncStatusTag where
  | in_progress
  | success
  | failed
deriving DecidableEq

/-- A `SyncMetadata` row: event timestamp, status tag, optional error
message.  The auto-incrementing id is the list position (the log is
append-only). -/
structure SyncMetaRow where
  timestamp : Nat
  status : SyncStatusTag
  errorMessage : Option String
deriving DecidableEq

/-- One station of the upstream stations response
(src/services/upstream-api.ts, `StationResponse.data`). -/
structure StationData where
  sta_id : String
  sta_name : String
  group_wil : Nat
  fg_enable : Nat
deriving DecidableEq

/-- One route map of the upstream route-maps response. -/
structure RouteMapData where
  area : Nat
  permalink : String
deriving DecidableEq

/-- An upstream list response carrying its embedded status field. -/
structure UpstreamListResp (α : Type) where
  status : Nat
  data : List α
deriving DecidableEq

/-- The error message formatting of the catch block in `runSync`
(src/services/sync.ts): `UpstreamApiError` values are prefixed and
annotated with status and body, other errors keep their message. -/
def syncErrorMessage (e : SyncErr) : String :=
  match e with
  | .upstream st msg body =>
    "Upstream API error: " ++ msg
      ++ (match st with
          | some c => " (Status: " ++ toString c ++ ")"
          | none => "")
      ++ (if body = "" then "" else " - Response: " ++ body)
  | .other msg => msg

/-- Combined outcome of one `runSync` call: both reference tables, the
append-only sync log, the console error lines emitted for swallowed
schedule-sync failures, and the overall result. -/
structure RunSyncOut where
  stationsTable : List Station
  routeMapsTable : List RouteMapRow
  syncLog : List SyncMetaRow
  logLines : List String
  result : Except String Unit

/-- `runSync` (src/services/sync.ts): append an `in_progress` row;
fetch stations and route maps (an upstream throw or a non-200 embedded
status is fatal: append a `failed` row and re-raise); replace both
tables wholesale; if schedule sync is enabled, run it and swallow any
failure (console log only); append a `success` row.  The outcomes of
the two fetches and of `syncSchedules` are passed in explicitly. -/
def runSync (tbl : List Station) (rms : List RouteMapRow) (log : List SyncMetaRow)
    (stResp : Except SyncErr (UpstreamListResp StationData))
    (rmResp : Except SyncErr (UpstreamListResp RouteMapData))
    (enableScheduleSync : Bool)
    (schedOutcome : Except String Unit)
    (now : Nat) : RunSyncOut :=
  let log₀ := log ++ [⟨now, .in_progress, none⟩]
  match stResp with
  | .error e =>
    ⟨tbl, rms, log₀ ++ [⟨now, .failed, some (syncErrorMessage e)⟩], [],
      .error (syncErrorMessage e)⟩
  | .ok sr =>
    if sr.status ≠ 200 then
      let msg := "Upstream API returned non-200 status for stations: " ++ toString sr.status
      ⟨tbl, rms, log₀ ++ [⟨now, .failed, some msg⟩], [], .error msg⟩
    else
      match rmResp with
      | .error e =>
        ⟨tbl, rms, log₀ ++ [⟨now, .failed, some (syncErrorMessage e)⟩], [],
          .error (syncErrorMessage e)⟩
      | .ok rr =>
        if rr.status ≠ 200 then
          let msg := "Upstream API returned non-200 status for route maps: " ++ toString rr.status
          ⟨tbl, rms, log₀ ++ [⟨now, .failed, some msg⟩], [], .error msg⟩
        else
          let newStations := sr.data.map (fun s =>
            (⟨s.sta_id, s.sta_name, s.group_wil, s.fg_enable, none, now, now⟩ : Station))
          let newRms := rr.data.map (fun r =>
            (⟨r.area, r.permalink, now, now⟩ : RouteMapRow))
          let schedLog :=
            if enableScheduleSync then
              match schedOutcome with
              | .ok _ => []
              | .error _ => ["Schedule synchronization failed, but continuing with main sync"]
            else []
          ⟨newStations, newRms, log₀ ++ [⟨now, .success, none⟩], schedLog, .ok ()⟩

/-- C4: when the station and route-map fetches succeed with embedded
status 200 and schedule sync is enabled, a failing `syncSchedules` is
caught inside `runSync`: the run produces exactly the same tables and
sync-log rows as a run whose schedule sync succeeds — ending with a
`success` row — returns without raising, and only a console line
records the swallowed failure. -/
theorem runSync_swallows_schedule_failure (tbl : List Station)
    (rms : List RouteMapRow) (log : List SyncMetaRow)
    (sr : UpstreamListResp StationData) (rr : UpstreamListResp RouteMapData)
    (e : String) (now : Nat) (hs : sr.status = 200) (hr : rr.status = 200) :
    ((runSync tbl rms log (.ok sr) (.ok rr) true (.error e) now).result = .ok ())
      ∧ ((runSync tbl rms log (.ok sr) (.ok rr) true (.error e) now).syncLog
          = log ++ [⟨now, .in_progress, none⟩, ⟨now, .success, none⟩])
      ∧ ((runSync tbl rms log (.ok sr) (.ok rr) true (.error e) now).stationsTable
          = (runSync tbl rms log (.ok sr) (.ok rr) true (.ok ()) now).stationsTable)
      ∧ ((runSync tbl rms log (.ok sr) (.ok rr) true (.error e) now).routeMapsTable
          = (runSync tbl rms log (.ok sr) (.ok rr) true (.ok ()) now).routeMapsTable)
      ∧ ((runSync tbl rms log (.ok sr) (.ok rr) true (.error e) now).syncLog
          = (runSync tbl rms log (.ok sr) (.ok rr) true (.ok ()) now).syncLog)
      ∧ ((runSync tbl rms log (.ok sr) (.ok rr) true (.error e) now).logLines
          = ["Schedule synchronization failed, but continuing with main sync"]) := by
  have hs' : ¬ sr.status ≠ 200 := fun h => h hs
  have hr' : ¬ rr.status ≠ 200 := fun h => h hr
  refine ⟨?_, ?_, ?_, ?_, ?_, ?_⟩ <;>
    simp [runSync, if_neg hs', if_neg hr', List.append_assoc]

/-- C4 witness: a concrete successful fetch pair with a failing
schedule sync still yields an `ok` run ending in a `success` row. -/
theorem runSync_swallows_schedule_failure_witness :
    ((⟨200, [⟨"TST", "Test Station", 1, 1⟩]⟩ : UpstreamListResp StationData).status = 200)
      ∧ ((runSync [] [] [] (.ok ⟨200, [⟨"TST", "Test Station", 1, 1⟩]⟩)
          (.ok ⟨200, [⟨1, "https://example.org/map.png"⟩]⟩) true
          (.error "schedule sync blew up") 5).result = .ok ())
      ∧ ((runSync [] [] [] (.ok ⟨200, [⟨"TST", "Test Station", 1, 1⟩]⟩)
          (.ok ⟨200, [⟨1, "https://example.org/map.png"⟩]⟩) true
          (.error "schedule sync blew up") 5).syncLog
          = [⟨5, .in_progress, none⟩, ⟨5, .success, none⟩]) :=
  ⟨rfl,
   (runSync_swallows_schedule_failure [] [] [] ⟨200, [⟨"TST", "Test Station", 1, 1⟩]⟩
     ⟨200, [⟨1, "https://example.org/map.png"⟩]⟩ "schedule sync blew up" 5 rfl rfl).1,
   by
    have h := (runSync_swallows_schedule_failure [] [] []
      ⟨200, [⟨"TST", "Test Station", 1, 1⟩]⟩
      ⟨200, [⟨1, "https://example.org/map.png"⟩]⟩ "schedule sync blew up" 5 rfl rfl).2.1
    simpa using h⟩

/-- An `HTTPException` as thrown by the schedule query service:
status code and message. -/
structure HttpError where
  status : Nat
  message : String
deriving DecidableEq

/-- One output record of `querySchedules`
(src/services/schedule-query.ts, `ScheduleQueryResult`). -/
structure ScheduleOut where
  train_id : String
  ka_name : String
  route_name : String
  dest : String
  time_est : String
  dest_time : String
  color : Option String
deriving DecidableEq

/-- The `ScheduleResponse` shape returned by `querySchedules`. -/
structure QueryResponse where
  status : Nat
  data : List ScheduleOut
deriving DecidableEq

/-- `padStart(2, '0')` on an hour or minute component. -/
def pad2 (n : Nat) : String := if n < 10 then "0" ++ toString n else toString n

/-- `formatTimeFromTimestamp`: format a same-day instant (minutes since
midnight) back to `HH:mm`. -/
def formatTimeFromTimestamp (m : Nat) : String := pad2 (m / 60) ++ ":" ++ pad2 (m % 60)

/-- Strip an expected prefix from a character list, returning the
remainder on success. -/
def dropPrefixChars : List Char → List Char → Option (List Char)
  | [], rest => some rest
  | _ :: _, [] => none
  | p :: ps, c :: cs => if c = p then dropPrefixChars ps cs else none

/-- Decoder for the `metadata?.origin?.color` access of
`extractColorFromMetadata`, specialised to the blob shapes this system
writes (`colorMetadata`): a JSON object with an `origin.color` field
holding either `null` or a string.  Any other shape yields `none`, as
`JSON.parse` failures and missing fields are swallowed in the source. -/
def metadataColorValue (l : List Char) : Option String :=
  match dropPrefixChars ("\x7b\"origin\":\x7b\"color\":".data) l with
  | none => none
  | some rest =>
    if rest = ("null\x7d\x7d".data) then none
    else
      match rest with
      | '"' :: more =>
        if ("\"\x7d\x7d".data).isSuffixOf more then
          some (String.mk (more.take (more.length - 3)))
        else none
      | _ => none

/-- `extractColorFromMetadata` (src/services/schedule-query.ts): a null
or empty metadata column, an unparseable blob, or a falsy color all
yield `null`. -/
def extractColorFromMetadata (metadataJson : Option String) : Option String :=
  match metadataJson with
  | none => none
  | some j =>
    if j = "" then none
    else
      match metadataColorValue j.data with
      | some c => if c = "" then none else some c
      | none => none

/-- The inner join of the main query: the destination station row, if
its id resolves in the Station table. -/
def destJoin (tbl : List Station) (r : ScheduleRow) : Option Station :=
  tbl.find? (fun s => s.staId == r.destinationStationId)

/-- Shape one joined row into the API-facing record. -/
def toScheduleOut (r : ScheduleRow) (destName : String) : ScheduleOut :=
  ⟨r.trainId, r.lineName, r.routeName, destName,
   formatTimeFromTimestamp r.departsAt, formatTimeFromTimestamp r.arrivesAt,
   extractColorFromMetadata r.metadata⟩

/-- Stable insertion used to model `orderBy(schedules.departsAt)`. -/
def insertByDeparture (r : ScheduleRow) : List ScheduleRow → List ScheduleRow
  | [] => [r]
  | x :: xs =>
    if x.departsAt < r.departsAt then x :: insertByDeparture r xs else r :: x :: xs

/-- Ascending stable sort on the departure instant. -/
def sortByDeparture : List ScheduleRow → List ScheduleRow
  | [] => []
  | r :: rs => insertByDeparture r (sortByDeparture rs)

/-- The `where` clause of the main query: same station, departure
within `[timeFrom, timeTo]`, inclusive at both ends (`gte`/`lte`). -/
def scheduleInRange (stationId : String) (a b : Nat) (r : ScheduleRow) : Bool :=
  r.stationId == stationId && decide (a ≤ r.departsAt) && decide (r.departsAt ≤ b)

/-- `querySchedules` (src/services/schedule-query.ts): parse both times
with the lax parser (a parse throw reaches the outer catch and becomes
a 500 Internal server error); check the station exists (a database
failure there is a 503, an unknown station a 404); run the main query
(a database failure there is a 500 `Failed to query schedules`);
otherwise return the in-range rows of the station, inner-joined to the
destination station, ordered by departure ascending, with status 200.
The two database-failure switches stand for the fallibility of the two
`await db...` calls. -/
def querySchedules (tbl : List Station) (scheds : List ScheduleRow)
    (stationId timeFrom timeTo : String)
    (stationCheckDbFails mainQueryDbFails : Bool) : Except HttpError QueryResponse :=
  match parseTimeToLocalTimestamp timeFrom, parseTimeToLocalTimestamp timeTo with
  | .ok a, .ok b =>
    if stationCheckDbFails then .error ⟨503, "Database service unavailable"⟩
    else if (tbl.filter (fun s => s.staId == stationId)).isEmpty then
      .error ⟨404, "Station with ID '" ++ stationId ++ "' not found"⟩
    else if mainQueryDbFails then .error ⟨500, "Failed to query schedules"⟩
    else
      let rows := sortByDeparture (scheds.filter (scheduleInRange stationId a b))
      let joined := rows.filterMap
        (fun r => (destJoin tbl r).map (fun s => toScheduleOut r s.staName))
      .ok ⟨200, joined⟩
  | _, _ => .error ⟨500, "Internal server error"⟩

theorem insertByDeparture_perm (r : ScheduleRow) (l : List ScheduleRow) :
    List.Perm (insertByDeparture r l) (r :: l) := by
  induction l with
  | nil => exact List.Perm.refl _
  | cons x xs ih =>
    unfold insertByDeparture
    by_cases h : x.departsAt < r.departsAt
    · rw [if_pos h]
      exact (ih.cons x).trans (List.Perm.swap r x xs)
    · rw [if_neg h]

theorem sortByDeparture_perm (l : List ScheduleRow) :
    List.Perm (sortByDeparture l) l := by
  induction l with
  | nil => exact List.Perm.refl _
  | cons r rs ih =>
    unfold sortByDeparture
    exact (insertByDeparture_perm r (sortByDeparture rs)).trans (ih.cons r)

theorem insertByDeparture_pairwise (r : ScheduleRow) (l : List ScheduleRow)
    (h : List.Pairwise (fun x y : ScheduleRow => x.departsAt ≤ y.departsAt) l) :
    List.Pairwise (fun x y : ScheduleRow => x.departsAt ≤ y.departsAt)
      (insertByDeparture r l) := by
  induction l with
  | nil => simp [insertByDeparture]
  | cons x xs ih =>
    rw [List.pairwise_cons] at h
    obtain ⟨hx, hxs⟩ := h
    unfold insertByDeparture
    by_cases hlt : x.departsAt < r.departsAt
    · rw [if_pos hlt]
      rw [List.pairwise_cons]
      refine ⟨?_, ih hxs⟩
      intro y hy
      have := (insertByDeparture_perm r xs).mem_iff.mp hy
      rcases List.mem_cons.mp this with rfl | hyin
      · exact Nat.le_of_lt hlt
      · exact hx y hyin
    · rw [if_neg hlt]
      have hrx : r.departsAt ≤ x.departsAt := Nat.le_of_not_lt hlt
      rw [List.pairwise_cons]
      refine ⟨?_, List.pairwise_cons.mpr ⟨hx, hxs⟩⟩
      intro y hy
      rcases List.mem_cons.mp hy with rfl | hyin
      · exact hrx
      · exact Nat.le_trans hrx (hx y hyin)

theorem sortByDeparture_pairwise (l : List ScheduleRow) :
    List.Pairwise (fun x y : ScheduleRow => x.departsAt ≤ y.departsAt)
      (sortByDeparture l) := by
  induction l with
  | nil => simp [sortByDeparture]
  | cons r rs ih => exact insertByDeparture_pairwise r (sortByDeparture rs) ih

theorem filterMap_length_of_isSome (f : α → Option β) :
    ∀ l : List α, (∀ x ∈ l, (f x).isSome) → (l.filterMap f).length = l.length := by
  intro l
  induction l with
  | nil => intro _; rfl
  | cons x xs ih =>
    intro h
    obtain ⟨y, hy⟩ := Option.isSome_iff_exists.mp (h x (List.mem_cons_self x xs))
    rw [List.filterMap_cons, hy]
    simp only [List.length_cons]
    rw [ih (fun z hz => h z (List.mem_cons_of_mem x hz))]

/-- C6: for an existing station, well-formed times and no database
failure, `querySchedules` succeeds with status 200 and one output
record per cached schedule row of that station whose departure lies
within `[timeFrom, timeTo]` inclusive at both ends (assuming the
destination references resolve, as the sync engine guarantees); the
selected rows are a permutation of exactly the in-range rows — a row of
the cache is selected iff it matches the station and the inclusive
bounds — sorted by departure ascending; and an empty selection yields
`.ok` with status 200 and an empty list, not an error. -/
theorem querySchedules_range_spec (tbl : List Station) (scheds : List ScheduleRow)
    (stationId timeFrom timeTo : String) (a b : Nat)
    (hf : parseTimeToLocalTimestamp timeFrom = .ok a)
    (ht : parseTimeToLocalTimestamp timeTo = .ok b)
    (hex : (tbl.filter (fun s => s.staId == stationId)).isEmpty = false)
    (hjoin : ∀ r ∈ scheds, (destJoin tbl r).isSome = true) :
    (∃ l, querySchedules tbl scheds stationId timeFrom timeTo false false = .ok ⟨200, l⟩
        ∧ l.length = (scheds.filter (scheduleInRange stationId a b)).length)
      ∧ List.Perm (sortByDeparture (scheds.filter (scheduleInRange stationId a b)))
          (scheds.filter (scheduleInRange stationId a b))
      ∧ List.Pairwise (fun x y : ScheduleRow => x.departsAt ≤ y.departsAt)
          (sortByDeparture (scheds.filter (scheduleInRange stationId a b)))
      ∧ (∀ r ∈ scheds,
          (r ∈ sortByDeparture (scheds.filter (scheduleInRange stationId a b))
            ↔ (r.stationId = stationId ∧ a ≤ r.departsAt ∧ r.departsAt ≤ b)))
      ∧ ((scheds.filter (scheduleInRange stationId a b) = []) →
          querySchedules tbl scheds stationId timeFrom timeTo false false
            = .ok ⟨200, []⟩) := by
  have hq : querySchedules tbl scheds stationId timeFrom timeTo false false
      = .ok ⟨200, (sortByDeparture (scheds.filter (scheduleInRange stationId a b))).filterMap
          (fun r => (destJoin tbl r).map (fun s => toScheduleOut r s.staName))⟩ := by
    unfold querySchedules
    rw [hf, ht]
    simp only [Bool.false_eq_true, if_false, hex]
  refine ⟨?_, sortByDeparture_perm _, sortByDeparture_pairwise _, ?_, ?_⟩
  · refine ⟨_, hq, ?_⟩
    rw [filterMap_length_of_isSome]
    · exact (sortByDeparture_perm _).length_eq
    · intro r hr
      have hr' : r ∈ scheds := List.mem_of_mem_filter
        ((sortByDeparture_perm _).mem_iff.mp hr)
      have hj := hjoin r hr'
      cases hd : destJoin tbl r with
      | none => rw [hd] at hj; exact absurd hj (by simp)
      | some s => rfl
  · intro r hr
    rw [(sortByDeparture_perm _).mem_iff, List.mem_filter]
    unfold scheduleInRange
    simp [hr, and_assoc]
  · intro hempty
    rw [hq, hempty]
    rfl

/-- C6 witness: the end-to-end scenario of the spec — three schedules
at 08:00, 10:15 and 14:30; querying 08:00–11:00 returns exactly the
first two, in order, with `time_est` values `08:00` and `10:15` (the
08:00 boundary row included). -/
theorem querySchedules_range_spec_witness :
    (parseTimeToLocalTimestamp "08:00" = .ok 480)
      ∧ (parseTimeToLocalTimestamp "11:00" = .ok 660)
      ∧ (∃ l, querySchedules
          [⟨"TST001", "Test Station", 1, 1, none, 0, 0⟩,
           ⟨"TST002", "Origin Station", 1, 1, none, 0, 0⟩,
           ⟨"TST003", "Destination Station", 1, 1, none, 0, 0⟩]
          [⟨"sc_krl_tst001_train1", "TST001", "TST002", "TST003", "TRAIN1",
             "Commuter Line", "ORIGIN STATION-DESTINATION STATION", 480, 570, none, 0⟩,
           ⟨"sc_krl_tst001_train2", "TST001", "TST002", "TST003", "TRAIN2",
             "Commuter Line Express", "ORIGIN STATION-DESTINATION STATION", 615, 705, none, 0⟩,
           ⟨"sc_krl_tst001_train3", "TST001", "TST002", "TST003", "TRAIN3",
             "Commuter Line", "ORIGIN STATION-DESTINATION STATION", 870, 960, none, 0⟩]
          "TST001" "08:00" "11:00" false false = .ok ⟨200, l⟩
          ∧ l.length = 2)
      ∧ (querySchedules
          [⟨"TST001", "Test Station", 1, 1, none, 0, 0⟩,
           ⟨"TST002", "Origin Station", 1, 1, none, 0, 0⟩,
           ⟨"TST003", "Destination Station", 1, 1, none, 0, 0⟩]
          [⟨"sc_krl_tst001_train1", "TST001", "TST002", "TST003", "TRAIN1",
             "Commuter Line", "ORIGIN STATION-DESTINATION STATION", 480, 570, none, 0⟩,
           ⟨"sc_krl_tst001_train2", "TST001", "TST002", "TST003", "TRAIN2",
             "Commuter Line Express", "ORIGIN STATION-DESTINATION STATION", 615, 705, none, 0⟩,
           ⟨"sc_krl_tst001_train3", "TST001", "TST002", "TST003", "TRAIN3",
             "Commuter Line", "ORIGIN STATION-DESTINATION STATION", 870, 960, none, 0⟩]
          "TST001" "08:00" "11:00" false false
          = .ok ⟨200,
            [⟨"TRAIN1", "Commuter Line", "ORIGIN STATION-DESTINATION STATION",
              "Destination Station", "08:00", "09:30", none⟩,
             ⟨"TRAIN2", "Commuter Line Express", "ORIGIN STATION-DESTINATION STATION",
              "Destination Station", "10:15", "11:45", none⟩]⟩) := by
  refine ⟨rfl, rfl, ?_, rfl⟩
  have h := (querySchedules_range_spec
    [⟨"TST001", "Test Station", 1, 1, none, 0, 0⟩,
     ⟨"TST002", "Origin Station", 1, 1, none, 0, 0⟩,
     ⟨"TST003", "Destination Station", 1, 1, none, 0, 0⟩]
    [⟨"sc_krl_tst001_train1", "TST001", "TST002", "TST003", "TRAIN1",
       "Commuter Line", "ORIGIN STATION-DESTINATION STATION", 480, 570, none, 0⟩,
     ⟨"sc_krl_tst001_train2", "TST001", "TST002", "TST003", "TRAIN2",
       "Commuter Line Express", "ORIGIN STATION-DESTINATION STATION", 615, 705, none, 0⟩,
     ⟨"sc_krl_tst001_train3", "TST001", "TST002", "TST003", "TRAIN3",
       "Commuter Line", "ORIGIN STATION-DESTINATION STATION", 870, 960, none, 0⟩]
    "TST001" "08:00" "11:00" 480 660 rfl rfl (by decide) (by decide)).1
  obtain ⟨l, hl, hlen⟩ := h
  exact ⟨l, hl, by rw [hlen]; decide⟩

/-- C5 counterexample: a database failure in the main schedule query —
station `TST001` exists, the existence check succeeds — is surfaced
with HTTP status 500 (`Failed to query schedules`), not as the 503
service-unavailable condition the claim asserts for every database
failure. -/
theorem querySchedules_mainquery_not_503 :
    (querySchedules [⟨"TST001", "Test Station", 1, 1, none, 0, 0⟩] []
        "TST001" "08:00" "09:00" false true
      = .error ⟨500, "Failed to query schedules"⟩)
      ∧ (500 : Nat) ≠ 503 :=
  ⟨rfl, by decide⟩

/-- C5 (amended): a database failure during the station-existence check
is surfaced as 503 service-unavailable; a database failure during the
main schedule query is surfaced as a 500 `Failed to query schedules`
internal error, not 503; both are distinct from the 404 not-found
raised for an unknown station. -/
theorem querySchedules_error_statuses (tbl : List Station) (scheds : List ScheduleRow)
    (stationId timeFrom timeTo : String) (a b : Nat) (q : Bool)
    (hf : parseTimeToLocalTimestamp timeFrom = .ok a)
    (ht : parseTimeToLocalTimestamp timeTo = .ok b) :
    (querySchedules tbl scheds stationId timeFrom timeTo true q
        = .error ⟨503, "Database service unavailable"⟩)
      ∧ ((tbl.filter (fun s => s.staId == stationId)).isEmpty = false →
          querySchedules tbl scheds stationId timeFrom timeTo false true
            = .error ⟨500, "Failed to query schedules"⟩)
      ∧ ((tbl.filter (fun s => s.staId == stationId)).isEmpty = true →
          querySchedules tbl scheds stationId timeFrom timeTo false false
            = .error ⟨404, "Station with ID '" ++ stationId ++ "' not found"⟩)
      ∧ ((503 : Nat) ≠ 404 ∧ (500 : Nat) ≠ 404 ∧ (500 : Nat) ≠ 503) := by
  refine ⟨?_, ?_, ?_, by decide, by decide, by decide⟩
  · unfold querySchedules
    rw [hf, ht]
    rfl
  · intro hex
    unfold querySchedules
    rw [hf, ht]
    simp [hex]
  · intro hex
    unfold querySchedules
    rw [hf, ht]
    simp [hex]

/-- C5 witness: with station `TST001` present, the existence-check
failure yields 503 and the main-query failure yields 500; with an empty
station table the same query yields 404. -/
theorem querySchedules_error_statuses_witness :
    (parseTimeToLocalTimestamp "08:00" = .ok 480
      ∧ parseTimeToLocalTimestamp "09:00" = .ok 540)
      ∧ (querySchedules [⟨"TST001", "Test Station", 1, 1, none, 0, 0⟩] []
          "TST001" "08:00" "09:00" true false
          = .error ⟨503, "Database service unavailable"⟩)
      ∧ (querySchedules [⟨"TST001", "Test Station", 1, 1, none, 0, 0⟩] []
          "TST001" "08:00" "09:00" false true
          = .error ⟨500, "Failed to query schedules"⟩)
      ∧ (querySchedules [] [] "TST001" "08:00" "09:00" false false
          = .error ⟨404, "Station with ID '" ++ "TST001" ++ "' not found"⟩) := by
  refine ⟨⟨rfl, rfl⟩, ?_, ?_, ?_⟩
  · exact (querySchedules_error_statuses [⟨"TST001", "Test Station", 1, 1, none, 0, 0⟩] []
      "TST001" "08:00" "09:00" 480 540 false rfl rfl).1
  · exact (querySchedules_error_statuses [⟨"TST001", "Test Station", 1, 1, none, 0, 0⟩] []
      "TST001" "08:00" "09:00" 480 540 false rfl rfl).2.1 (by decide)
  · exact (querySchedules_error_statuses [] []
      "TST001" "08:00" "09:00" 480 540 false rfl rfl).2.2.1 (by decide)

end Commuline
